import Mathlib

/-!
Verification of the phoenix-waterfall streaming signal pipeline
(`src/waterfall.c`) against its natural-language specification.

The C code is shallowly embedded: pure computations become Lean
functions on `ℕ`/`ℤ`/`ℚ`; the float arithmetic of the DSP formulas is
idealised as exact real arithmetic over `ℝ`; 32-bit unsigned machine
arithmetic is modelled on `ℕ` with explicit reduction modulo `2 ^ 32`;
the stateful main-loop fragments become explicit state-passing step
functions on records that hold exactly the globals the fragment touches.
-/

namespace Waterfall

/-! ## Configuration constants (waterfall.c lines 89-96, 136-148, 182, 210-211) -/

def MAGIC_PHXI : ℕ := 0x50485849
def MAGIC_IQDQ : ℕ := 0x49514451
def MAGIC_META : ℕ := 0x4D455441

def SAMPLE_FORMAT_S16 : ℕ := 1
def SAMPLE_FORMAT_F32 : ℕ := 2
def SAMPLE_FORMAT_U8 : ℕ := 3

def DISPLAY_SAMPLE_RATE : ℕ := 12000
def DISPLAY_FFT_SIZE : ℕ := 2048
def DISPLAY_OVERLAP : ℕ := 1024

def ZOOM_MAX_HZ : ℚ := 5000

def RECONNECT_INTERVAL_MS : ℕ := 5000

/-- Modulus of the `uint32_t` machine arithmetic used by the protocol. -/
def U32 : ℕ := 2 ^ 32

/-! ## Sample codec dispatch (waterfall.c lines 931-958)

The per-frame format dispatch inside the `MAGIC_IQDQ` branch of the
main loop.  `bytes_per_sample` embeds the chained conditional on line
932-933; `convert_path` embeds the conversion dispatch on lines 952-958.
Note that neither has a failure case: every format code, known or not,
falls through to a default branch. -/

/-- Which conversion routine the frame payload is fed to
(lines 952-958).  The source has exactly three branches and no error
branch; the trailing `else` is commented `SAMPLE_FORMAT_F32` and does a
raw `memcpy` into the float sample buffer. -/
inductive ConvertPath
  | s16ToFloat   -- pn_s16_to_float
  | u8ToFloat    -- pn_u8_to_float
  | f32Memcpy    -- memcpy(sample_buffer, g_raw_buffer, float_bytes)
  deriving DecidableEq, Repr

/-- Line 932-933: bytes per I or Q value as a function of the declared
sample format.  Any format other than S16 or F32 — including unknown
codes — yields 1. -/
def bytes_per_sample (fmt : ℕ) : ℕ :=
  if fmt = SAMPLE_FORMAT_S16 then 2
  else if fmt = SAMPLE_FORMAT_F32 then 4
  else 1

/-- Lines 952-958: conversion dispatch.  Any format other than S16 or
U8 — including unknown codes — takes the F32 `memcpy` branch. -/
def convert_path (fmt : ℕ) : ConvertPath :=
  if fmt = SAMPLE_FORMAT_S16 then ConvertPath.s16ToFloat
  else if fmt = SAMPLE_FORMAT_U8 then ConvertPath.u8ToFloat
  else ConvertPath.f32Memcpy

/-- Line 934: number of payload bytes read from the socket for a data
frame of `n` I/Q pairs in format `fmt`. -/
def data_bytes (fmt n : ℕ) : ℕ := n * 2 * bytes_per_sample fmt

/-- Line 943: number of bytes the F32 `memcpy` branch copies out of the
raw network buffer (`num_samples * 2 * sizeof(float)`). -/
def float_bytes (n : ℕ) : ℕ := n * 2 * 4

/-! ## Sequence-gap tracking (waterfall.c lines 922-929, reset at 396)

`g_last_sequence` is reset to `0` on a successful connect (line 396).
A gap warning is printed iff `g_last_sequence != 0` and the incoming
sequence is not `g_last_sequence + 1` in `uint32` arithmetic; the
reported dropped count is `sequence - g_last_sequence - 1` in `uint32`
arithmetic.  Afterwards `g_last_sequence` becomes the new sequence. -/

/-- Result of the sequence check for one data frame: updated
`g_last_sequence`, whether a gap warning was reported, and the dropped
count printed in the warning (0 when no warning). -/
structure SeqOut where
  last : ℕ
  reported : Bool
  dropped : ℕ
  deriving DecidableEq, Repr

/-- Lines 922-929, for one incoming data-frame sequence number.
`last` and `seq` are `uint32` values (naturals below `U32`). -/
def seq_check (last seq : ℕ) : SeqOut :=
  if last ≠ 0 ∧ seq ≠ (last + 1) % U32 then
    ⟨seq, true, (seq + U32 - last - 1) % U32⟩
  else
    ⟨seq, false, 0⟩

/-- Processing a whole session's worth of data-frame sequence numbers,
starting from the post-connect state `g_last_sequence = 0`; returns the
final `g_last_sequence` together with the list of reported gap sizes.
Every frame is processed — the check never aborts the stream. -/
def run_seq (frames : List ℕ) : ℕ × List ℕ :=
  frames.foldl
    (fun st s =>
      let o := seq_check st.1 s
      (o.last, if o.reported then st.2 ++ [o.dropped] else st.2))
    (0, [])

/-! ## Streaming-state acquisition step (waterfall.c lines 913-1003)

One iteration of the sample-acquisition phase of the main loop,
parameterised by the outcomes of the transport reads.  The outcome of
`tcp_recv_exact` is `recv_result_t` (lines 79-83).  `disconnect_from_relay`
(lines 347-354) closes the socket and clears `g_connected`. -/

/-- `recv_result_t` (lines 79-83). -/
inductive RecvRes
  | ok
  | timeout
  | error
  deriving DecidableEq, Repr

/-- The transport-visible content of one loop iteration: the outcome of
the 16-byte frame-header read, the header fields if it succeeded, and
the outcome of the payload read the code would then issue. -/
structure AcqEvent where
  headerRes : RecvRes
  magic : ℕ
  sequence : ℕ
  payloadRes : RecvRes
  deriving DecidableEq, Repr

/-- The globals this fragment reads and writes: `g_connected`,
`g_last_sequence`, and (as an observation) the reported gap sizes. -/
structure AcqState where
  connected : Bool
  lastSequence : ℕ
  gapsReported : List ℕ
  deriving DecidableEq, Repr

/-- Lines 913-1003.  Dispatch on the header-read outcome and the frame
magic.  On `MAGIC_IQDQ` the sequence check runs and then the payload
read decides between processing (`RECV_OK`) and
`disconnect_from_relay()` (anything else, line 979).  On `MAGIC_META`
the 16 remaining payload bytes are read but the result only gates a
`printf`: the connection state is unchanged no matter how the read
ends (lines 981-1000).  Unknown magic only logs (line 1002). -/
def acquire_step (ev : AcqEvent) (st : AcqState) : AcqState :=
  if st.connected = false then st
  else
    match ev.headerRes with
    | RecvRes.timeout => st
    | RecvRes.error => { st with connected := false }
    | RecvRes.ok =>
      if ev.magic = MAGIC_IQDQ then
        let o := seq_check st.lastSequence ev.sequence
        let st' : AcqState :=
          { st with
            lastSequence := o.last
            gapsReported :=
              if o.reported then st.gapsReported ++ [o.dropped]
              else st.gapsReported }
        match ev.payloadRes with
        | RecvRes.ok => st'
        | _ => { st' with connected := false }
      else if ev.magic = MAGIC_META then
        st
      else
        st

/-! ## Waterfall canvas scroll (waterfall.c lines 1063-1072)

The pixel buffer holds `h` rows of `w * 3` bytes.  The `memmove` copies
rows `0 .. h-2` onto rows `1 .. h-1` (the last row falls off) and the
following loop overwrites row 0 with the freshly coloured row.  On the
row decomposition of the buffer this is: cons the new row in front and
truncate to `h` rows. -/

/-- One row of the canvas: `w * 3` RGB bytes. -/
abbrev CanvasRow := List ℕ

/-- Lines 1063-1072 on the row decomposition of `g_pixels`. -/
def push_row (h : ℕ) (canvas : List CanvasRow) (row : CanvasRow) :
    List CanvasRow :=
  (row :: canvas).take h

/-- Pushing a sequence of rows, oldest first. -/
def push_rows (h : ℕ) (canvas : List CanvasRow) (rows : List CanvasRow) :
    List CanvasRow :=
  rows.foldl (push_row h) canvas

/-! ## Reconnect gating (waterfall.c lines 773-810)

Two fragments at the top of the main loop can call
`connect_to_relay()` while disconnected:

* the discovery block (lines 774-797): fires whenever the discovery
  flag is set, the session is disconnected and auto-connect is on —
  with no look at the reconnect timer;
* the timer block (lines 799-810): fires when the session is
  disconnected, at least `RECONNECT_INTERVAL_MS` milliseconds have
  elapsed since `g_last_reconnect_time` (in `uint32` tick arithmetic),
  and discovery is enabled or the configured host is nonempty.

`g_last_reconnect_time` is refreshed on every disconnect and every
failed connect (lines 353, 363, 381, 389). -/

/-- Snapshot of the globals the two reconnect fragments consult at the
top of a loop iteration. -/
structure LoopCtx where
  connected : Bool
  serviceDiscovered : Bool
  autoConnect : Bool
  discoveryEnabled : Bool
  relayHostLen : ℕ
  now : ℕ
  lastReconnectTime : ℕ
  deriving DecidableEq, Repr

/-- Milliseconds elapsed since the last failure/disconnect, as computed
by `now - g_last_reconnect_time` on `uint32` ticks. -/
def elapsed_ms (c : LoopCtx) : ℕ :=
  (c.now + U32 - c.lastReconnectTime) % U32

/-- Lines 774-797: does the discovery block call `connect_to_relay()`
this iteration? -/
def discovery_connect_attempt (c : LoopCtx) : Bool :=
  c.serviceDiscovered && !c.connected && c.autoConnect

/-- Lines 799-810: does the timer block call `connect_to_relay()` this
iteration?  (Evaluated on the same snapshot; if the discovery block
connected successfully, `connected` is true and this is false.) -/
def timer_connect_attempt (c : LoopCtx) : Bool :=
  !c.connected
    && decide (RECONNECT_INTERVAL_MS ≤ elapsed_ms c)
    && (c.discoveryEnabled || decide (0 < c.relayHostLen))

/-- A connect attempt happens this iteration iff either fragment fires. -/
def connect_attempt (c : LoopCtx) : Bool :=
  discovery_connect_attempt c || timer_connect_attempt c

/-! ## Column-to-bin mapping and magnitudes (waterfall.c lines 1033-1044)

The float arithmetic is idealised as exact rational/real arithmetic.
The C cast `(int)` truncates toward zero, embedded as `c_trunc`. -/

/-- Line 139: `DISPLAY_SAMPLE_RATE / DISPLAY_FFT_SIZE` as a float. -/
def DISPLAY_HZ_PER_BIN : ℚ := (DISPLAY_SAMPLE_RATE : ℚ) / (DISPLAY_FFT_SIZE : ℚ)

/-- C `(int)` cast on a float value: truncation toward zero. -/
def c_trunc (q : ℚ) : ℤ := if 0 ≤ q then ⌊q⌋ else ⌈q⌉

/-- Line 1035: requested display frequency of column `i` out of `w`. -/
def column_freq (w i : ℕ) : ℚ := ((i : ℚ) / (w : ℚ) - 1 / 2) * 2 * ZOOM_MAX_HZ

/-- Lines 1036-1037: the raw (unclamped) FFT bin index for column `i`. -/
def column_bin_raw (w i : ℕ) : ℤ :=
  if 0 ≤ column_freq w i then
    c_trunc (column_freq w i / DISPLAY_HZ_PER_BIN + 1 / 2)
  else
    (DISPLAY_FFT_SIZE : ℤ) + c_trunc (column_freq w i / DISPLAY_HZ_PER_BIN - 1 / 2)

/-- Lines 1038-1039: clamp the bin index into `[0, DISPLAY_FFT_SIZE)`. -/
def clamp_bin (b : ℤ) : ℤ :=
  if b < 0 then 0
  else if (DISPLAY_FFT_SIZE : ℤ) ≤ b then (DISPLAY_FFT_SIZE : ℤ) - 1
  else b

/-- The FFT bin sampled for display column `i`. -/
def column_bin (w i : ℕ) : ℤ := clamp_bin (column_bin_raw w i)

/-- Lines 1041-1043: linear magnitude of column `i`, given the FFT
output `fftOut` (bin index ↦ (re, im)). -/
noncomputable def column_magnitude (fftOut : ℕ → ℝ × ℝ) (w i : ℕ) : ℝ :=
  Real.sqrt ((fftOut (column_bin w i).toNat).1 ^ 2 +
    (fftOut (column_bin w i).toNat).2 ^ 2) / (DISPLAY_FFT_SIZE : ℝ)

/-- Rounding to the nearest integer with ties away from zero — the
reading of the spec's `round(freq / hz_per_bin)` under which the two
claim branches are compared with the code. -/
def round_half_away (q : ℚ) : ℤ := if 0 ≤ q then ⌊q + 1 / 2⌋ else ⌈q - 1 / 2⌉

/-- Spec-side: the display frequency of column `i`, linear from
`−zoom_max_hz` to `+zoom_max_hz` across the `w` columns. -/
def spec_column_freq (w i : ℕ) : ℚ :=
  -ZOOM_MAX_HZ + (i : ℚ) * (2 * ZOOM_MAX_HZ / (w : ℚ))

/-- Spec-side bin mapping, written from the spec's words:
`bin = round(freq / hz_per_bin)` for non-negative frequency,
`bin = N + round(freq / hz_per_bin)` for negative frequency, clamped to
`[0, N-1]`. -/
def spec_column_bin (w i : ℕ) : ℤ :=
  min ((DISPLAY_FFT_SIZE : ℤ) - 1) (max 0
    (if 0 ≤ spec_column_freq w i then
      round_half_away (spec_column_freq w i / DISPLAY_HZ_PER_BIN)
    else
      (DISPLAY_FFT_SIZE : ℤ) +
        round_half_away (spec_column_freq w i / DISPLAY_HZ_PER_BIN)))

/-! ## Analysis window (waterfall.c lines 273-280)

`generate_blackman_harris` fills `window[i]` for `i < size` with the
4-term Blackman-Harris coefficient evaluated at `n = i / (size - 1)`. -/

/-- Line 277: the interpolation parameter `n = (float)i / (float)(size - 1)`.
Note the source divides by `size - 1`, not `size`. -/
noncomputable def bh_n (size i : ℕ) : ℝ := (i : ℝ) / ((size - 1 : ℕ) : ℝ)

/-- The 4-term Blackman-Harris polynomial of line 278 as a function of
the interpolation parameter. -/
noncomputable def bh_poly (n : ℝ) : ℝ :=
  0.35875 - 0.48829 * Real.cos (2 * Real.pi * n)
    + 0.14128 * Real.cos (4 * Real.pi * n)
    - 0.01168 * Real.cos (6 * Real.pi * n)

/-- Lines 273-280, coefficient at index `i` of a window of length `size`. -/
noncomputable def generate_blackman_harris (size i : ℕ) : ℝ :=
  bh_poly (bh_n size i)

/-- The window coefficient exactly as the spec words it, with
`n = i / size` ranging over `[0, 1)`. -/
noncomputable def blackman_harris_spec_coeff (size i : ℕ) : ℝ :=
  bh_poly ((i : ℝ) / (size : ℝ))

/-! ## Gain tracker (waterfall.c lines 1050-1057, constants 210-211) -/

def AGC_ATTACK : ℚ := 5 / 100
def AGC_DECAY : ℚ := 2 / 1000

/-- Line 1056: one `g_peak_db` update from the per-frame maximum. -/
def agc_peak_step (peak frameMax : ℚ) : ℚ :=
  peak + (if peak < frameMax then AGC_ATTACK else AGC_DECAY) * (frameMax - peak)

/-- Line 1057: one `g_floor_db` update from the per-frame minimum. -/
def agc_floor_step (floorDb frameMin : ℚ) : ℚ :=
  floorDb + (if frameMin < floorDb then AGC_ATTACK else AGC_DECAY) * (frameMin - floorDb)

/-- `g_peak_db` after `n` frames whose per-frame maximum is constantly `m`. -/
def agc_peak_seq (p0 m : ℚ) : ℕ → ℚ
  | 0 => p0
  | n + 1 => agc_peak_step (agc_peak_seq p0 m n) m

/-- `g_floor_db` after `n` frames whose per-frame minimum is constantly `m`. -/
def agc_floor_seq (f0 m : ℚ) : ℕ → ℚ
  | 0 => f0
  | n + 1 => agc_floor_step (agc_floor_seq f0 m n) m

/-! ## Color mapping (waterfall.c lines 448-468)

`magnitude_to_rgb` converts one linear magnitude to an RGB triple.  The
channel values are kept as reals here; the C code's final `(uint8_t)`
casts are well defined exactly when these reals lie in `[0, 255]`. -/

/-- Line 450: `db = 20 * log10(mag + 1e-10) + g_gain_offset`. -/
noncomputable def mag_db (mag gain : ℝ) : ℝ := 20 * Real.logb 10 (mag + 1e-10) + gain

/-- Lines 451-452: the dB range with its 20 dB lower bound. -/
noncomputable def agc_range (peak floorDb : ℝ) : ℝ :=
  if peak - floorDb < 20 then 20 else peak - floorDb

/-- Line 453: the normalized value before clamping. -/
noncomputable def norm_raw (mag peak floorDb gain : ℝ) : ℝ :=
  (mag_db mag gain - floorDb) / agc_range peak floorDb

/-- Lines 450-455: the clamped normalized value.  `g_gain_offset` is
the global added into `db` on line 450. -/
noncomputable def magnitude_norm (mag peak floorDb gain : ℝ) : ℝ :=
  if norm_raw mag peak floorDb gain < 0 then 0
  else if 1 < norm_raw mag peak floorDb gain then 1
  else norm_raw mag peak floorDb gain

/-- Lines 457-467: the 5-stop gradient, channel values before the
`(uint8_t)` casts. -/
noncomputable def magnitude_to_rgb (mag peak floorDb gain : ℝ) : ℝ × ℝ × ℝ :=
  if magnitude_norm mag peak floorDb gain < 0.25 then
    (0, 0, magnitude_norm mag peak floorDb gain * 4 * 255)
  else if magnitude_norm mag peak floorDb gain < 0.5 then
    (0, (magnitude_norm mag peak floorDb gain - 0.25) * 4 * 255, 255)
  else if magnitude_norm mag peak floorDb gain < 0.75 then
    ((magnitude_norm mag peak floorDb gain - 0.5) * 4 * 255, 255,
      (0.75 - magnitude_norm mag peak floorDb gain) * 4 * 255)
  else
    (255, (1 - magnitude_norm mag peak floorDb gain) * 4 * 255, 0)

/-! ## Session processing state (waterfall.c lines 177-204, 393-420, 961-976)

The globals the connect/ingest/analyze path touches, gathered into one
record.  The decimator internals live in phoenix-dsp, outside this
repository; only their initialisation is relevant here. -/

/-- Modelled from the spec: `pn_decimate_t` of phoenix-dsp (the library
is not part of this repository's sources).  Spec §4.2: a decimator is
parameterised by `(factor, input_rate)` and keeps internal
accumulator/phase state sufficient to produce one output per `factor`
inputs. -/
structure DecimState where
  factor : ℕ
  inputRate : ℚ
  acc : ℚ
  phase : ℕ
  deriving DecidableEq, Repr

/-- Modelled from the spec: `pn_decimate_init(state, factor, rate)`
from phoenix-dsp installs the parameters with fresh internal state. -/
def pn_decimate_init (factor : ℕ) (rate : ℚ) : DecimState :=
  ⟨factor, rate, 0, 0⟩

/-- The globals of the sample pipeline: negotiated stream parameters,
sequence tracker, both decimators, the circular I/Q buffer with its
write index and new-sample counter, and the connection flag. -/
structure WFState where
  sampleRate : ℕ
  sampleFormat : ℕ
  lastSequence : ℕ
  decimI : DecimState
  decimQ : DecimState
  iqBuffer : ℕ → ℚ × ℚ
  iqBufferIdx : ℕ
  newSamples : ℕ
  connected : Bool

/-- Lines 393-420: the success path of `connect_to_relay` after the
PHXI header validated — store the negotiated rate and format, reset the
sequence tracker, re-init both decimators with
`factor = max(rate / DISPLAY_SAMPLE_RATE, 1)`, and mark connected.
Nothing else is touched: in particular `g_iq_buffer`,
`g_iq_buffer_idx` and `g_new_samples` keep their values.
Lines 404-405: the integer decimation factor with its floor of 1. -/
def decimation_factor (rate : ℕ) : ℕ :=
  if rate / DISPLAY_SAMPLE_RATE < 1 then 1 else rate / DISPLAY_SAMPLE_RATE

/-- Lines 393-420: the success path of `connect_to_relay` (see above). -/
def connect_success (rate fmt : ℕ) (st : WFState) : WFState :=
  { st with
    sampleRate := rate
    sampleFormat := fmt
    lastSequence := 0
    decimI := pn_decimate_init (decimation_factor rate) (rate : ℚ)
    decimQ := pn_decimate_init (decimation_factor rate) (rate : ℚ)
    connected := true }

/-- Lines 970-975: append one decimated I/Q pair at the write cursor,
advance it modulo the FFT size, and bump the new-sample counter. -/
def ingest (st : WFState) (di dq : ℚ) : WFState :=
  { st with
    iqBuffer := Function.update st.iqBuffer st.iqBufferIdx (di, dq)
    iqBufferIdx := (st.iqBufferIdx + 1) % DISPLAY_FFT_SIZE
    newSamples := st.newSamples + 1 }

/-- `n` consecutive ingests of the zero sample. -/
def ingest_n (st : WFState) : ℕ → WFState
  | 0 => st
  | n + 1 => ingest (ingest_n st n) 0 0

/-- Lines 1022-1025: the `i`-th sample fed to the FFT is the buffer
slot `(g_iq_buffer_idx + i) % DISPLAY_FFT_SIZE`. -/
def analyze_window (st : WFState) (i : ℕ) : ℚ × ℚ :=
  st.iqBuffer ((st.iqBufferIdx + i) % DISPLAY_FFT_SIZE)

/-! # Theorems -/

/-- Helper: pushing rows one by one is cons-then-truncate, folded. -/
theorem push_rows_append_take (h : ℕ) (c rs : List CanvasRow) (hcle : c.length ≤ h) :
    push_rows h c rs = (rs.reverse ++ c).take h := by
  induction rs generalizing c with
  | nil => simp [push_rows, List.take_of_length_le hcle]
  | cons r rs ih =>
    show push_rows h (push_row h c r) rs = _
    have hlen : (push_row h c r).length ≤ h := by
      simp [push_row]
    rw [ih _ hlen]
    simp only [push_row, List.reverse_cons, List.append_assoc, List.singleton_append]
    rw [List.take_append_eq_append_take, List.take_append_eq_append_take, List.take_take]
    congr 1
    rw [inf_eq_left.mpr (Nat.sub_le h rs.reverse.length)]

/-- **C1.** The claim says a data frame with an unknown `sample_format`
makes the sample codec fail with `UnsupportedFormat`, producing no
normalized floats.  The code has no such failure path: format code 4
falls into `bytes_per_sample = 1` (line 933's default) and into the F32
`memcpy` branch (line 956's default), so 2 payload bytes are received
for one I/Q pair but 8 bytes are copied into the float sample buffer —
samples are produced (partly from out-of-bounds raw-buffer memory)
instead of the frame being dropped. -/
theorem c1_unknown_format_not_rejected :
    convert_path 4 = ConvertPath.f32Memcpy ∧
    bytes_per_sample 4 = 1 ∧
    data_bytes 4 1 = 2 ∧ float_bytes 1 = 8 ∧ data_bytes 4 1 < float_bytes 1 := by
  decide

/-- **C2.** Evaluation at the failing input: with a connected session,
an accepted `META` frame header followed by a failed (or timed-out)
16-byte payload read leaves the connection up — lines 985-1000 ignore
the read outcome — contradicting the claim that an accepted header's
payload is read in full or the connection is torn down.  For contrast,
the data-frame path does tear down on a failed payload read (line 979),
and a header-read timeout leaves the state untouched (line 917). -/
theorem c2_meta_payload_failure_keeps_connection :
    (acquire_step ⟨RecvRes.ok, MAGIC_META, 9, RecvRes.error⟩ ⟨true, 5, []⟩).connected = true ∧
    (acquire_step ⟨RecvRes.ok, MAGIC_META, 9, RecvRes.timeout⟩ ⟨true, 5, []⟩).connected = true ∧
    (acquire_step ⟨RecvRes.ok, MAGIC_IQDQ, 6, RecvRes.error⟩ ⟨true, 5, []⟩).connected = false ∧
    acquire_step ⟨RecvRes.timeout, MAGIC_IQDQ, 6, RecvRes.ok⟩ ⟨true, 5, []⟩ = ⟨true, 5, []⟩ := by
  decide

/-- **C5 (counterexample).** After a frame with sequence 0 has been
seen, a following frame with sequence 5 is not one greater, yet no gap
is reported: `g_last_sequence != 0` is the code's only notion of "a
previous sequence was seen", so a seen sequence 0 resets the tracker. -/
theorem c5_sequence_zero_hides_gap :
    run_seq [0, 5] = (5, []) ∧ (5 : ℕ) ≠ (0 + 1) % U32 := by
  decide

/-- **C5 (amended).** A gap is reported exactly when the stored
sequence is nonzero and the new sequence is not one greater modulo
`2^32`; the stored sequence always becomes the new one and processing
continues; and the session `1, 2, 4, 5` reports exactly one gap, of
size 1, with all four frames processed (the final tracker state is 5). -/
theorem c5_gap_reporting (last seq : ℕ) :
    ((seq_check last seq).reported = true ↔ last ≠ 0 ∧ seq ≠ (last + 1) % U32) ∧
    (seq_check last seq).last = seq ∧
    run_seq [1, 2, 4, 5] = (5, [1]) := by
  refine ⟨?_, ?_, by decide⟩
  · unfold seq_check
    split <;> simp_all
  · unfold seq_check
    split <;> rfl

/-- **C9 (counterexample).** 100 ms after a disconnect — long before
the 5 s interval has elapsed — a pending discovery event with
auto-connect enabled triggers `connect_to_relay()`: the discovery block
(lines 774-797) never consults the reconnect timer. -/
theorem c9_discovery_bypasses_interval :
    connect_attempt ⟨false, true, true, true, 9, 100, 0⟩ = true ∧
    elapsed_ms ⟨false, true, true, true, 9, 100, 0⟩ < RECONNECT_INTERVAL_MS := by
  decide

/-- **C9 (amended).** In a loop iteration with no pending discovery
event, a connect attempt happens only if the session is disconnected,
at least `RECONNECT_INTERVAL_MS` (5000 ms) have elapsed since the last
failure/disconnect, and a target is known (discovery enabled or a
nonempty configured host).  The discovery block (and the settings-panel
connect button) can trigger an attempt regardless of the interval. -/
theorem c9_timer_gate (c : LoopCtx) (hnd : c.serviceDiscovered = false)
    (ha : connect_attempt c = true) :
    c.connected = false ∧
    RECONNECT_INTERVAL_MS ≤ elapsed_ms c ∧
    (c.discoveryEnabled = true ∨ 0 < c.relayHostLen) := by
  unfold connect_attempt discovery_connect_attempt timer_connect_attempt at ha
  rw [hnd] at ha
  simp at ha
  exact ⟨ha.1.1, ha.1.2, ha.2⟩

/-- **C7.** Pushing a row shifts every existing row down by one and
writes the new row at row 0.  Starting from any canvas of height `h`,
after `h` pushes with pairwise-distinct contents the canvas is exactly
the pushed rows newest-first: row 0 is the most recent input and row
`h - 1` is the first; one further push fully evicts the
originally-first row. -/
theorem canvas_scroll (h : ℕ) (c rs : List CanvasRow) (rx rFirst rLast : CanvasRow)
    (hc : c.length = h) (hrs : rs.length = h)
    (hfirst : rs.head? = some rFirst) (hlast : rs.getLast? = some rLast)
    (hnd : (rs ++ [rx]).Nodup) :
    push_rows h c rs = rs.reverse ∧
    (push_rows h c rs).head? = some rLast ∧
    (push_rows h c rs).getLast? = some rFirst ∧
    rFirst ∉ push_rows h c (rs ++ [rx]) := by
  have hcle : c.length ≤ h := le_of_eq hc
  have hrev : rs.reverse.length = h := by simpa using hrs
  have h1 : push_rows h c rs = rs.reverse := by
    rw [push_rows_append_take h c rs hcle, ← hrev, List.take_left]
  refine ⟨h1, by rw [h1, List.head?_reverse, hlast],
    by rw [h1, List.getLast?_reverse, hfirst], ?_⟩
  cases rs with
  | nil => simp at hfirst
  | cons a t =>
    rw [List.head?_cons, Option.some_inj] at hfirst
    subst hfirst
    have hh : h = t.length + 1 := by simpa using hrs.symm
    subst hh
    rw [push_rows_append_take _ c _ hcle]
    have he : ((a :: t) ++ [rx]).reverse ++ c = rx :: (t.reverse ++ ([a] ++ c)) := by
      simp
    rw [he, List.take_succ_cons, List.take_left' (by simp)]
    simp only [List.mem_cons, List.mem_reverse]
    rintro (hcase | hcase)
    · simp [List.nodup_append] at hnd
      exact hnd.1.2 hcase
    · simp [List.nodup_cons] at hnd
      exact hnd.1.1 hcase

/-- Witness for `canvas_scroll`: a height-2 canvas, two distinct pushed
rows, and a third distinct row for the evicting push. -/
theorem canvas_scroll_witness :
    push_rows 2 [[9], [8]] [[1], [2]] = [[1], [2]].reverse ∧
    (push_rows 2 [[9], [8]] [[1], [2]]).head? = some [2] ∧
    (push_rows 2 [[9], [8]] [[1], [2]]).getLast? = some [1] ∧
    [1] ∉ push_rows 2 [[9], [8]] ([[1], [2]] ++ [[3]]) :=
  canvas_scroll 2 [[9], [8]] [[1], [2]] [3] [1] [2]
    (by decide) (by decide) (by decide) (by decide) (by decide)

/-- Witness for `c9_timer_gate` at a concrete context: disconnected, no
discovery event, 6000 ms elapsed, discovery enabled. -/
theorem c9_timer_gate_witness :
    (⟨false, false, true, true, 9, 6000, 0⟩ : LoopCtx).connected = false ∧
    RECONNECT_INTERVAL_MS ≤ elapsed_ms ⟨false, false, true, true, 9, 6000, 0⟩ ∧
    ((⟨false, false, true, true, 9, 6000, 0⟩ : LoopCtx).discoveryEnabled = true ∨
      0 < (⟨false, false, true, true, 9, 6000, 0⟩ : LoopCtx).relayHostLen) :=
  c9_timer_gate ⟨false, false, true, true, 9, 6000, 0⟩ (by decide) (by decide)

/-- Helper: the new-sample counter after `n` ingests. -/
theorem ingest_n_newSamples (st : WFState) (n : ℕ) :
    (ingest_n st n).newSamples = st.newSamples + n := by
  induction n with
  | zero => rfl
  | succ n ih => simp [ingest_n, ingest, ih, Nat.add_assoc]

/-- Helper: the write index after `n` ingests, for an in-range start. -/
theorem ingest_n_idx (st : WFState) (hidx : st.iqBufferIdx < DISPLAY_FFT_SIZE) (n : ℕ) :
    (ingest_n st n).iqBufferIdx = (st.iqBufferIdx + n) % DISPLAY_FFT_SIZE := by
  induction n with
  | zero => simp [ingest_n, Nat.mod_eq_of_lt hidx]
  | succ n ih =>
    simp only [ingest_n, ingest]
    rw [ih, Nat.mod_add_mod, Nat.add_assoc]

/-- Helper: after `n ≤ DISPLAY_FFT_SIZE` ingests of the zero sample
starting at write index 0, slots `0 .. n-1` hold the zero sample and
every other slot keeps its previous contents. -/
theorem ingest_n_buffer (st : WFState) (hidx : st.iqBufferIdx = 0) (n : ℕ)
    (hn : n ≤ DISPLAY_FFT_SIZE) (j : ℕ) :
    (ingest_n st n).iqBuffer j = if j < n then ((0 : ℚ), (0 : ℚ)) else st.iqBuffer j := by
  induction n with
  | zero => simp [ingest_n]
  | succ n ih =>
    have hn' : n ≤ DISPLAY_FFT_SIZE := Nat.le_of_succ_le hn
    have hidxn : (ingest_n st n).iqBufferIdx = n := by
      rw [ingest_n_idx st (by rw [hidx]; simp [DISPLAY_FFT_SIZE]) n, hidx, Nat.zero_add,
        Nat.mod_eq_of_lt (Nat.lt_of_lt_of_le (Nat.lt_succ_self n) hn)]
    simp only [ingest_n, ingest]
    rw [Function.update_apply, hidxn, ih hn']
    by_cases hj : j = n
    · simp [hj]
    · by_cases hj2 : j < n
      · simp [hj, hj2, Nat.lt_succ_of_lt hj2]
      · have hj3 : ¬j < n + 1 := by omega
        simp [hj, hj2, hj3]

/-- **C10.** A successful connect stores the negotiated parameters,
resets the sequence tracker to 0 and re-initialises both decimators
(factor at least 1), but leaves the circular I/Q buffer, its write
index and the new-sample counter untouched; every ingest keeps the
write index inside `[0, DISPLAY_FFT_SIZE)`; and concretely, a session
whose buffer is full of the sample `(7, 7)` that reconnects and then
ingests exactly `DISPLAY_OVERLAP` fresh zero samples reaches the
analysis threshold with window position 0 still reading a `(7, 7)`
sample written before the reconnect. -/
theorem reconnect_preserves_pipeline_state (rate fmt : ℕ) (st : WFState) (di dq : ℚ) :
    (connect_success rate fmt st).iqBuffer = st.iqBuffer ∧
    (connect_success rate fmt st).iqBufferIdx = st.iqBufferIdx ∧
    (connect_success rate fmt st).newSamples = st.newSamples ∧
    (connect_success rate fmt st).lastSequence = 0 ∧
    (connect_success rate fmt st).decimI = pn_decimate_init (decimation_factor rate) (rate : ℚ) ∧
    (connect_success rate fmt st).decimQ = pn_decimate_init (decimation_factor rate) (rate : ℚ) ∧
    1 ≤ decimation_factor rate ∧
    (ingest st di dq).iqBufferIdx < DISPLAY_FFT_SIZE ∧
    (DISPLAY_OVERLAP ≤ (ingest_n (connect_success 2000000 2
        ⟨12000, 2, 77, pn_decimate_init 1 12000, pn_decimate_init 1 12000,
          fun _ => (7, 7), 0, 0, false⟩) DISPLAY_OVERLAP).newSamples ∧
      analyze_window (ingest_n (connect_success 2000000 2
        ⟨12000, 2, 77, pn_decimate_init 1 12000, pn_decimate_init 1 12000,
          fun _ => (7, 7), 0, 0, false⟩) DISPLAY_OVERLAP) 0 = (7, 7)) := by
  refine ⟨rfl, rfl, rfl, rfl, rfl, rfl, ?_, ?_, ?_, ?_⟩
  · unfold decimation_factor
    split <;> omega
  · exact Nat.mod_lt _ (by simp [DISPLAY_FFT_SIZE])
  · rw [ingest_n_newSamples]
    exact Nat.le_add_left _ _
  · have hidx0 : (connect_success 2000000 2
        ⟨12000, 2, 77, pn_decimate_init 1 12000, pn_decimate_init 1 12000,
          fun _ => (7, 7), 0, 0, false⟩ : WFState).iqBufferIdx = 0 := rfl
    unfold analyze_window
    rw [ingest_n_idx _ (by rw [hidx0]; simp [DISPLAY_FFT_SIZE]) _, hidx0,
      ingest_n_buffer _ hidx0 _ (by simp [DISPLAY_OVERLAP, DISPLAY_FFT_SIZE])]
    norm_num [DISPLAY_OVERLAP, DISPLAY_FFT_SIZE]
    rfl

/-- **C3.** Each display column `i` of `w` is assigned the frequency
linear from `-ZOOM_MAX_HZ` to `+ZOOM_MAX_HZ` across the width; the
code's truncation-based bin computation (lines 1036-1037) equals the
spec's `round(freq / hz_per_bin)` mapping (negative frequencies wrapped
by `N`, result clamped to `[0, N-1]`) with "round" read as ties away
from zero; the resulting bin is always in range; and the column's
magnitude is `sqrt(re^2 + im^2) / N` of exactly that bin. -/
theorem column_mapping_matches_spec (F : ℕ → ℝ × ℝ) (w i : ℕ) :
    column_bin w i = spec_column_bin w i ∧
    0 ≤ column_bin w i ∧ column_bin w i < (DISPLAY_FFT_SIZE : ℤ) ∧
    column_magnitude F w i =
      Real.sqrt ((F (spec_column_bin w i).toNat).1 ^ 2 +
        (F (spec_column_bin w i).toNat).2 ^ 2) / (DISPLAY_FFT_SIZE : ℝ) := by
  have hfreq : spec_column_freq w i = column_freq w i := by
    unfold spec_column_freq column_freq ZOOM_MAX_HZ
    ring
  have hhz : (0 : ℚ) < DISPLAY_HZ_PER_BIN := by
    unfold DISPLAY_HZ_PER_BIN DISPLAY_SAMPLE_RATE DISPLAY_FFT_SIZE
    norm_num
  have htr1 : ∀ q : ℚ, 0 ≤ q → c_trunc (q + 1 / 2) = round_half_away q := by
    intro q hq
    unfold c_trunc round_half_away
    rw [if_pos (by linarith), if_pos hq]
  have htr2 : ∀ q : ℚ, q < 0 → c_trunc (q - 1 / 2) = round_half_away q := by
    intro q hq
    unfold c_trunc round_half_away
    rw [if_neg (by linarith), if_neg (by linarith)]
  have hclamp : ∀ b : ℤ, clamp_bin b = min ((DISPLAY_FFT_SIZE : ℤ) - 1) (max 0 b) := by
    intro b
    unfold clamp_bin DISPLAY_FFT_SIZE
    rw [min_def, max_def]
    split_ifs <;> omega
  have hcrange : ∀ b : ℤ, 0 ≤ clamp_bin b ∧ clamp_bin b < (DISPLAY_FFT_SIZE : ℤ) := by
    intro b
    unfold clamp_bin DISPLAY_FFT_SIZE
    split_ifs <;> constructor <;> omega
  have hbin : column_bin w i = spec_column_bin w i := by
    unfold column_bin spec_column_bin column_bin_raw
    rw [hfreq, hclamp]
    rcases le_or_lt 0 (column_freq w i) with h | h
    · rw [if_pos h, if_pos h, htr1 _ (div_nonneg h hhz.le)]
    · rw [if_neg (not_le.mpr h), if_neg (not_le.mpr h),
        htr2 _ (div_neg_of_neg_of_pos h hhz)]
  refine ⟨hbin, (hcrange _).1, (hcrange _).2, ?_⟩
  unfold column_magnitude
  rw [hbin]

/-- Helper: one smoothing move `p + r * (m - p)` scales the distance to
`m` by `1 - r`. -/
theorem smoothing_dist (p m r : ℚ) (_h0 : 0 ≤ r) (h1 : r ≤ 1) :
    |p + r * (m - p) - m| = (1 - r) * |p - m| := by
  have h : p + r * (m - p) - m = (1 - r) * (p - m) := by ring
  rw [h, abs_mul, abs_of_nonneg (by linarith)]

/-- Helper: every peak update shrinks the distance to the target by a
factor of at least `1 - AGC_DECAY = 499/500`. -/
theorem agc_peak_step_err (p m : ℚ) :
    |agc_peak_step p m - m| ≤ 499 / 500 * |p - m| := by
  unfold agc_peak_step AGC_ATTACK AGC_DECAY
  have habs := abs_nonneg (p - m)
  split
  · rw [smoothing_dist p m (5 / 100) (by norm_num) (by norm_num)]
    nlinarith
  · rw [smoothing_dist p m (2 / 1000) (by norm_num) (by norm_num)]
    nlinarith

/-- Helper: the mirrored bound for the floor update. -/
theorem agc_floor_step_err (f m : ℚ) :
    |agc_floor_step f m - m| ≤ 499 / 500 * |f - m| := by
  unfold agc_floor_step AGC_ATTACK AGC_DECAY
  have habs := abs_nonneg (f - m)
  split
  · rw [smoothing_dist f m (5 / 100) (by norm_num) (by norm_num)]
    nlinarith
  · rw [smoothing_dist f m (2 / 1000) (by norm_num) (by norm_num)]
    nlinarith

/-- Helper: a peak update from below the target stays between the
current value and the target. -/
theorem agc_peak_step_mono_le (p m : ℚ) (h : p ≤ m) :
    p ≤ agc_peak_step p m ∧ agc_peak_step p m ≤ m := by
  unfold agc_peak_step AGC_ATTACK AGC_DECAY
  split <;> constructor <;> nlinarith

/-- Helper: a peak update from above the target stays between the
target and the current value. -/
theorem agc_peak_step_mono_ge (p m : ℚ) (h : m ≤ p) :
    m ≤ agc_peak_step p m ∧ agc_peak_step p m ≤ p := by
  unfold agc_peak_step AGC_ATTACK AGC_DECAY
  split <;> constructor <;> nlinarith

/-- Helper: a floor update from below the target stays between the
current value and the target. -/
theorem agc_floor_step_mono_le (f m : ℚ) (h : f ≤ m) :
    f ≤ agc_floor_step f m ∧ agc_floor_step f m ≤ m := by
  unfold agc_floor_step AGC_ATTACK AGC_DECAY
  split <;> constructor <;> nlinarith

/-- Helper: a floor update from above the target stays between the
target and the current value. -/
theorem agc_floor_step_mono_ge (f m : ℚ) (h : m ≤ f) :
    m ≤ agc_floor_step f m ∧ agc_floor_step f m ≤ f := by
  unfold agc_floor_step AGC_ATTACK AGC_DECAY
  split <;> constructor <;> nlinarith

/-- Helper: geometric error bound for the iterated peak update. -/
theorem agc_peak_seq_err (p0 m : ℚ) (n : ℕ) :
    |agc_peak_seq p0 m n - m| ≤ (499 / 500) ^ n * |p0 - m| := by
  induction n with
  | zero => simp [agc_peak_seq]
  | succ n ih =>
    simp only [agc_peak_seq]
    have h1 := agc_peak_step_err (agc_peak_seq p0 m n) m
    have h2 : (499 / 500 : ℚ) * |agc_peak_seq p0 m n - m| ≤
        499 / 500 * ((499 / 500) ^ n * |p0 - m|) :=
      mul_le_mul_of_nonneg_left ih (by norm_num)
    calc |agc_peak_step (agc_peak_seq p0 m n) m - m|
        ≤ 499 / 500 * |agc_peak_seq p0 m n - m| := h1
      _ ≤ 499 / 500 * ((499 / 500) ^ n * |p0 - m|) := h2
      _ = (499 / 500) ^ (n + 1) * |p0 - m| := by ring

/-- Helper: geometric error bound for the iterated floor update. -/
theorem agc_floor_seq_err (f0 m : ℚ) (n : ℕ) :
    |agc_floor_seq f0 m n - m| ≤ (499 / 500) ^ n * |f0 - m| := by
  induction n with
  | zero => simp [agc_floor_seq]
  | succ n ih =>
    simp only [agc_floor_seq]
    have h1 := agc_floor_step_err (agc_floor_seq f0 m n) m
    have h2 : (499 / 500 : ℚ) * |agc_floor_seq f0 m n - m| ≤
        499 / 500 * ((499 / 500) ^ n * |f0 - m|) :=
      mul_le_mul_of_nonneg_left ih (by norm_num)
    calc |agc_floor_step (agc_floor_seq f0 m n) m - m|
        ≤ 499 / 500 * |agc_floor_seq f0 m n - m| := h1
      _ ≤ 499 / 500 * ((499 / 500) ^ n * |f0 - m|) := h2
      _ = (499 / 500) ^ (n + 1) * |f0 - m| := by ring

/-- Helper: the distance of the iterated peak value to the target never
increases. -/
theorem agc_peak_seq_err_antitone (p0 m : ℚ) (n : ℕ) :
    |agc_peak_seq p0 m (n + 1) - m| ≤ |agc_peak_seq p0 m n - m| := by
  simp only [agc_peak_seq]
  have h1 := agc_peak_step_err (agc_peak_seq p0 m n) m
  have h2 := abs_nonneg (agc_peak_seq p0 m n - m)
  nlinarith

/-- Helper: the distance of the iterated floor value to the target
never increases. -/
theorem agc_floor_seq_err_antitone (f0 m : ℚ) (n : ℕ) :
    |agc_floor_seq f0 m (n + 1) - m| ≤ |agc_floor_seq f0 m n - m| := by
  simp only [agc_floor_seq]
  have h1 := agc_floor_step_err (agc_floor_seq f0 m n) m
  have h2 := abs_nonneg (agc_floor_seq f0 m n - m)
  nlinarith

/-- Helper: the iterated peak value gets within any `ε > 0` of the
target after boundedly many updates. -/
theorem agc_peak_seq_conv (p0 m ε : ℚ) (hε : 0 < ε) :
    ∃ N, ∀ n, N ≤ n → |agc_peak_seq p0 m n - m| < ε := by
  obtain ⟨N, hN⟩ := exists_pow_lt_of_lt_one
    (show (0 : ℚ) < ε / (|p0 - m| + 1) by positivity)
    (show (499 / 500 : ℚ) < 1 by norm_num)
  refine ⟨N, fun n hn => ?_⟩
  have h1 := agc_peak_seq_err p0 m n
  have h2 : ((499 : ℚ) / 500) ^ n ≤ (499 / 500) ^ N :=
    pow_le_pow_of_le_one (by norm_num) (by norm_num) hn
  have habs : (0 : ℚ) ≤ |p0 - m| := abs_nonneg _
  have h3 : ((499 : ℚ) / 500) ^ n * |p0 - m| ≤ (499 / 500) ^ N * |p0 - m| :=
    mul_le_mul_of_nonneg_right h2 habs
  have h4 : ((499 : ℚ) / 500) ^ N * |p0 - m| <
      ε / (|p0 - m| + 1) * (|p0 - m| + 1) :=
    mul_lt_mul'' hN (by linarith) (pow_nonneg (by norm_num) N) habs
  have h5 : ε / (|p0 - m| + 1) * (|p0 - m| + 1) = ε :=
    div_mul_cancel₀ ε (by positivity)
  linarith

/-- Helper: the iterated floor value gets within any `ε > 0` of the
target after boundedly many updates. -/
theorem agc_floor_seq_conv (f0 m ε : ℚ) (hε : 0 < ε) :
    ∃ N, ∀ n, N ≤ n → |agc_floor_seq f0 m n - m| < ε := by
  obtain ⟨N, hN⟩ := exists_pow_lt_of_lt_one
    (show (0 : ℚ) < ε / (|f0 - m| + 1) by positivity)
    (show (499 / 500 : ℚ) < 1 by norm_num)
  refine ⟨N, fun n hn => ?_⟩
  have h1 := agc_floor_seq_err f0 m n
  have h2 : ((499 : ℚ) / 500) ^ n ≤ (499 / 500) ^ N :=
    pow_le_pow_of_le_one (by norm_num) (by norm_num) hn
  have habs : (0 : ℚ) ≤ |f0 - m| := abs_nonneg _
  have h3 : ((499 : ℚ) / 500) ^ n * |f0 - m| ≤ (499 / 500) ^ N * |f0 - m| :=
    mul_le_mul_of_nonneg_right h2 habs
  have h4 : ((499 : ℚ) / 500) ^ N * |f0 - m| <
      ε / (|f0 - m| + 1) * (|f0 - m| + 1) :=
    mul_lt_mul'' hN (by linarith) (pow_nonneg (by norm_num) N) habs
  have h5 : ε / (|f0 - m| + 1) * (|f0 - m| + 1) = ε :=
    div_mul_cancel₀ ε (by positivity)
  linarith

/-- **C6.** With frames of constant per-frame maximum −20 dB and
minimum −70 dB, the asymmetrically smoothed `g_peak_db` and
`g_floor_db` approach −20 and −70 monotonically from any starting
state — the distance to the target never increases, the iterates never
overshoot — and for every `ε > 0` they are within `ε` of the target
after a bounded number of updates. -/
theorem agc_convergence (p0 f0 ε : ℚ) (hε : 0 < ε) :
    (∀ n, |agc_peak_seq p0 (-20) (n + 1) - (-20)| ≤ |agc_peak_seq p0 (-20) n - (-20)|) ∧
    (∀ n, agc_peak_seq p0 (-20) n ≤ -20 →
      agc_peak_seq p0 (-20) n ≤ agc_peak_seq p0 (-20) (n + 1) ∧
        agc_peak_seq p0 (-20) (n + 1) ≤ -20) ∧
    (∀ n, -20 ≤ agc_peak_seq p0 (-20) n →
      agc_peak_seq p0 (-20) (n + 1) ≤ agc_peak_seq p0 (-20) n ∧
        -20 ≤ agc_peak_seq p0 (-20) (n + 1)) ∧
    (∃ N, ∀ n, N ≤ n → |agc_peak_seq p0 (-20) n - (-20)| < ε) ∧
    (∀ n, |agc_floor_seq f0 (-70) (n + 1) - (-70)| ≤ |agc_floor_seq f0 (-70) n - (-70)|) ∧
    (∀ n, agc_floor_seq f0 (-70) n ≤ -70 →
      agc_floor_seq f0 (-70) n ≤ agc_floor_seq f0 (-70) (n + 1) ∧
        agc_floor_seq f0 (-70) (n + 1) ≤ -70) ∧
    (∀ n, -70 ≤ agc_floor_seq f0 (-70) n →
      agc_floor_seq f0 (-70) (n + 1) ≤ agc_floor_seq f0 (-70) n ∧
        -70 ≤ agc_floor_seq f0 (-70) (n + 1)) ∧
    (∃ N, ∀ n, N ≤ n → |agc_floor_seq f0 (-70) n - (-70)| < ε) := by
  refine ⟨fun n => agc_peak_seq_err_antitone p0 (-20) n,
    fun n h => ?_, fun n h => ?_,
    agc_peak_seq_conv p0 (-20) ε hε,
    fun n => agc_floor_seq_err_antitone f0 (-70) n,
    fun n h => ?_, fun n h => ?_,
    agc_floor_seq_conv f0 (-70) ε hε⟩
  · simpa [agc_peak_seq] using agc_peak_step_mono_le (agc_peak_seq p0 (-20) n) (-20) h
  · simpa [agc_peak_seq, and_comm] using
      agc_peak_step_mono_ge (agc_peak_seq p0 (-20) n) (-20) h
  · simpa [agc_floor_seq] using agc_floor_step_mono_le (agc_floor_seq f0 (-70) n) (-70) h
  · simpa [agc_floor_seq, and_comm] using
      agc_floor_step_mono_ge (agc_floor_seq f0 (-70) n) (-70) h

/-- Witness for `agc_convergence` at the concrete starting state
`g_peak_db = -40`, `g_floor_db = -80` (the initial values on lines
207-208) and `ε = 1`. -/
theorem agc_convergence_witness :
    (∀ n, |agc_peak_seq (-40) (-20) (n + 1) - (-20)| ≤ |agc_peak_seq (-40) (-20) n - (-20)|) ∧
    (∀ n, agc_peak_seq (-40) (-20) n ≤ -20 →
      agc_peak_seq (-40) (-20) n ≤ agc_peak_seq (-40) (-20) (n + 1) ∧
        agc_peak_seq (-40) (-20) (n + 1) ≤ -20) ∧
    (∀ n, -20 ≤ agc_peak_seq (-40) (-20) n →
      agc_peak_seq (-40) (-20) (n + 1) ≤ agc_peak_seq (-40) (-20) n ∧
        -20 ≤ agc_peak_seq (-40) (-20) (n + 1)) ∧
    (∃ N, ∀ n, N ≤ n → |agc_peak_seq (-40) (-20) n - (-20)| < 1) ∧
    (∀ n, |agc_floor_seq (-80) (-70) (n + 1) - (-70)| ≤ |agc_floor_seq (-80) (-70) n - (-70)|) ∧
    (∀ n, agc_floor_seq (-80) (-70) n ≤ -70 →
      agc_floor_seq (-80) (-70) n ≤ agc_floor_seq (-80) (-70) (n + 1) ∧
        agc_floor_seq (-80) (-70) (n + 1) ≤ -70) ∧
    (∀ n, -70 ≤ agc_floor_seq (-80) (-70) n →
      agc_floor_seq (-80) (-70) (n + 1) ≤ agc_floor_seq (-80) (-70) n ∧
        -70 ≤ agc_floor_seq (-80) (-70) (n + 1)) ∧
    (∃ N, ∀ n, N ≤ n → |agc_floor_seq (-80) (-70) n - (-70)| < 1) :=
  agc_convergence (-40) (-80) 1 (by norm_num)

/-- **C8.** For every input, the clamped normalized value of the color
mapping equals `(db - floor_db) / max(peak_db - floor_db, 20)` clamped
to `[0, 1]`; the denominator is exactly `max(peak_db - floor_db, 20)`
and hence at least 20, so the normalization never divides by a
near-zero range even when peak and floor converge; and every channel of
the produced RGB triple lies in `[0, 255]`, so the `(uint8_t)` casts
are well defined. -/
theorem magnitude_color_well_defined (mag peak floorDb gain : ℝ) :
    magnitude_norm mag peak floorDb gain =
      max 0 (min 1 ((mag_db mag gain - floorDb) / max (peak - floorDb) 20)) ∧
    agc_range peak floorDb = max (peak - floorDb) 20 ∧
    (20 : ℝ) ≤ agc_range peak floorDb ∧
    (magnitude_to_rgb mag peak floorDb gain).1 ∈ Set.Icc (0 : ℝ) 255 ∧
    (magnitude_to_rgb mag peak floorDb gain).2.1 ∈ Set.Icc (0 : ℝ) 255 ∧
    (magnitude_to_rgb mag peak floorDb gain).2.2 ∈ Set.Icc (0 : ℝ) 255 := by
  have hrange : agc_range peak floorDb = max (peak - floorDb) 20 := by
    unfold agc_range
    rcases lt_or_ge (peak - floorDb) 20 with h | h
    · rw [if_pos h, max_eq_right h.le]
    · rw [if_neg (not_lt.mpr h), max_eq_left h]
  have h20 : (20 : ℝ) ≤ agc_range peak floorDb := by
    rw [hrange]
    exact le_max_right _ _
  have hnorm_eq : magnitude_norm mag peak floorDb gain =
      max 0 (min 1 (norm_raw mag peak floorDb gain)) := by
    unfold magnitude_norm
    rcases lt_or_ge (norm_raw mag peak floorDb gain) 0 with h | h
    · rw [if_pos h, min_eq_right (by linarith), max_eq_left (by linarith)]
    · rw [if_neg (not_lt.mpr h)]
      rcases lt_or_ge 1 (norm_raw mag peak floorDb gain) with h1 | h1
      · rw [if_pos h1, min_eq_left h1.le, max_eq_right zero_le_one]
      · rw [if_neg (not_lt.mpr h1), min_eq_right h1, max_eq_right h]
  have hnr : norm_raw mag peak floorDb gain =
      (mag_db mag gain - floorDb) / max (peak - floorDb) 20 := by
    unfold norm_raw
    rw [hrange]
  have h0 : 0 ≤ magnitude_norm mag peak floorDb gain := by
    unfold magnitude_norm
    split_ifs <;> linarith
  have h1 : magnitude_norm mag peak floorDb gain ≤ 1 := by
    unfold magnitude_norm
    split_ifs <;> linarith
  refine ⟨by rw [hnorm_eq, hnr], hrange, h20, ?_, ?_, ?_⟩ <;>
    · rw [Set.mem_Icc]
      unfold magnitude_to_rgb
      split_ifs <;> constructor <;> dsimp only <;> nlinarith

/-- Helper: `cos (4π) = 1`. -/
theorem cos_four_pi : Real.cos (4 * Real.pi) = 1 := by
  have h : (4 : ℝ) * Real.pi = 2 * Real.pi + 2 * Real.pi := by ring
  rw [h, Real.cos_add_two_pi, Real.cos_two_pi]

/-- Helper: `sin (4π) = 0`. -/
theorem sin_four_pi : Real.sin (4 * Real.pi) = 0 := by
  have h : (4 : ℝ) * Real.pi = 2 * Real.pi + 2 * Real.pi := by ring
  rw [h, Real.sin_add_two_pi, Real.sin_two_pi]

/-- Helper: `cos (6π) = 1`. -/
theorem cos_six_pi : Real.cos (6 * Real.pi) = 1 := by
  have h : (6 : ℝ) * Real.pi = 4 * Real.pi + 2 * Real.pi := by ring
  rw [h, Real.cos_add_two_pi, cos_four_pi]

/-- Helper: `sin (6π) = 0`. -/
theorem sin_six_pi : Real.sin (6 * Real.pi) = 0 := by
  have h : (6 : ℝ) * Real.pi = 4 * Real.pi + 2 * Real.pi := by ring
  rw [h, Real.sin_add_two_pi, sin_four_pi]

/-- Helper: `cos (3π) = -1`. -/
theorem cos_three_pi : Real.cos (3 * Real.pi) = -1 := by
  have h : (3 : ℝ) * Real.pi = Real.pi + 2 * Real.pi := by ring
  rw [h, Real.cos_add_two_pi, Real.cos_pi]

/-- **C4 (counterexample).** At a window of size 2, index 1, the code's
coefficient uses `n = i / (size - 1) = 1` and evaluates to
`a0 - a1 + a2 - a3 = 0.00006`, while the spec's formula with
`n = i / size = 1/2` gives `a0 + a1 + a2 + a3 = 1`: the source divides
by `size - 1`, not `size`. -/
theorem blackman_harris_spec_coeff_mismatch :
    generate_blackman_harris 2 1 ≠ blackman_harris_spec_coeff 2 1 := by
  have h1 : bh_n 2 1 = 1 := by
    unfold bh_n
    norm_num
  have hcode : generate_blackman_harris 2 1 = 0.00006 := by
    unfold generate_blackman_harris
    rw [h1]
    unfold bh_poly
    rw [mul_one, mul_one, mul_one, Real.cos_two_pi, cos_four_pi, cos_six_pi]
    norm_num
  have h2 : ((1 : ℕ) : ℝ) / ((2 : ℕ) : ℝ) = 1 / 2 := by norm_num
  have hspec : blackman_harris_spec_coeff 2 1 = 1 := by
    unfold blackman_harris_spec_coeff
    rw [h2]
    unfold bh_poly
    rw [show (2 : ℝ) * Real.pi * (1 / 2) = Real.pi by ring,
      show (4 : ℝ) * Real.pi * (1 / 2) = 2 * Real.pi by ring,
      show (6 : ℝ) * Real.pi * (1 / 2) = 3 * Real.pi by ring,
      Real.cos_pi, Real.cos_two_pi, cos_three_pi]
    norm_num
  rw [hcode, hspec]
  norm_num

/-- **C4 (amended).** The analysis window coefficient at index `i` of a
window of size `size ≥ 2` is the 4-term Blackman-Harris polynomial
`a0 - a1 cos(2πn) + a2 cos(4πn) - a3 cos(6πn)` with
`n = i / (size - 1)`, so `n` spans `[0, 1]` inclusive — which makes the
window symmetric: the coefficient at `size - 1 - i` equals the one at
`i`. -/
theorem blackman_harris_code_formula (size i : ℕ) (hs : 2 ≤ size) (hi : i < size) :
    generate_blackman_harris size i =
      0.35875 - 0.48829 * Real.cos (2 * Real.pi * ((i : ℝ) / ((size : ℝ) - 1)))
        + 0.14128 * Real.cos (4 * Real.pi * ((i : ℝ) / ((size : ℝ) - 1)))
        - 0.01168 * Real.cos (6 * Real.pi * ((i : ℝ) / ((size : ℝ) - 1))) ∧
    generate_blackman_harris size (size - 1 - i) = generate_blackman_harris size i := by
  have hc1 : ((size - 1 : ℕ) : ℝ) = (size : ℝ) - 1 := by
    rw [Nat.cast_sub (by omega : 1 ≤ size), Nat.cast_one]
  have hc2 : ((size - 1 - i : ℕ) : ℝ) = (size : ℝ) - 1 - (i : ℝ) := by
    have h1 : size - 1 - i = size - (1 + i) := by omega
    rw [h1, Nat.cast_sub (by omega : 1 + i ≤ size)]
    push_cast
    ring
  have hs2 : (2 : ℝ) ≤ (size : ℝ) := by exact_mod_cast hs
  have hN0 : (size : ℝ) - 1 ≠ 0 := by linarith
  constructor
  · unfold generate_blackman_harris bh_n bh_poly
    rw [hc1]
  · unfold generate_blackman_harris bh_n
    rw [hc1, hc2]
    have harg : ((size : ℝ) - 1 - (i : ℝ)) / ((size : ℝ) - 1) =
        1 - (i : ℝ) / ((size : ℝ) - 1) := by
      field_simp
    rw [harg]
    have key : ∀ c y : ℝ, Real.cos c = 1 → Real.sin c = 0 →
        Real.cos (c - c * y) = Real.cos (c * y) := by
      intro c y h1 h2
      rw [Real.cos_sub, h1, h2]
      ring
    unfold bh_poly
    rw [show 2 * Real.pi * (1 - (i : ℝ) / ((size : ℝ) - 1)) =
        2 * Real.pi - 2 * Real.pi * ((i : ℝ) / ((size : ℝ) - 1)) by ring,
      key _ _ Real.cos_two_pi Real.sin_two_pi,
      show 4 * Real.pi * (1 - (i : ℝ) / ((size : ℝ) - 1)) =
        4 * Real.pi - 4 * Real.pi * ((i : ℝ) / ((size : ℝ) - 1)) by ring,
      key _ _ cos_four_pi sin_four_pi,
      show 6 * Real.pi * (1 - (i : ℝ) / ((size : ℝ) - 1)) =
        6 * Real.pi - 6 * Real.pi * ((i : ℝ) / ((size : ℝ) - 1)) by ring,
      key _ _ cos_six_pi sin_six_pi]

/-- Witness for `blackman_harris_code_formula` at size 2, index 0. -/
theorem blackman_harris_code_formula_witness :
    generate_blackman_harris 2 0 =
      0.35875 - 0.48829 * Real.cos (2 * Real.pi * (((0 : ℕ) : ℝ) / (((2 : ℕ) : ℝ) - 1)))
        + 0.14128 * Real.cos (4 * Real.pi * (((0 : ℕ) : ℝ) / (((2 : ℕ) : ℝ) - 1)))
        - 0.01168 * Real.cos (6 * Real.pi * (((0 : ℕ) : ℝ) / (((2 : ℕ) : ℝ) - 1))) ∧
    generate_blackman_harris 2 (2 - 1 - 0) = generate_blackman_harris 2 0 :=
  blackman_harris_code_formula 2 0 (by norm_num) (by norm_num)

end Waterfall
